import Mathlib

/-!
Verification of the fighting-landlord online card game engine.

The combination rule engine below is a shallow embedding of the card value
mapping, the combination analyzer and the combination comparator from the
client game module (the module also imported by the server as its rules
engine).  The match state machine further down embeds the socket command
handlers of the server entry point.  JavaScript arrays become Lean lists,
the insertion-ordered Map produced by iterating an ascending-sorted list
becomes List.dedup of that sorted list together with List.count, and the
numeric sort becomes an insertion sort on Nat.
-/

namespace Landlord

/-- Card id to comparison value.  Mirrors the source: id 53 is the small
joker (16), id 54 the big joker (17); otherwise idx = (id - 1) mod 13 with
idx 0 the ace (14), idx 1 the two (15), and idx 2..12 the ranks 3..13.
Card ids are the naturals 1..54, so the Nat subtraction here agrees with
the JavaScript arithmetic on the whole domain of interest. -/
def entityToValue (id : Nat) : Nat :=
  if id = 53 then 16
  else if id = 54 then 17
  else
    let idx := (id - 1) % 13
    if idx = 0 then 14
    else if idx = 1 then 15
    else idx + 1

/-- Insert a value into an ascending-sorted list, keeping it sorted. -/
def insertSorted (v : Nat) : List Nat → List Nat
  | [] => [v]
  | w :: ws => if v ≤ w then v :: w :: ws else w :: insertSorted v ws

/-- Ascending numeric sort, the embedding of sort with the numeric
comparator used by the source on value lists. -/
def sortAsc : List Nat → List Nat
  | [] => []
  | v :: vs => insertSorted v (sortAsc vs)

theorem length_insertSorted (v : Nat) (l : List Nat) :
    (insertSorted v l).length = l.length + 1 := by
  induction l with
  | nil => rfl
  | cons w ws ih =>
      simp only [insertSorted]
      split <;> simp [ih]

theorem length_sortAsc (l : List Nat) : (sortAsc l).length = l.length := by
  induction l with
  | nil => rfl
  | cons v vs ih => simp [sortAsc, length_insertSorted, ih]

/-- The closed set of combination kinds of the source rules module. -/
inductive CombinationType where
  | Single | Pair | Triple | TripleSingle | TriplePair
  | Straight | StraightPair | Plane | PlaneSingle | PlanePair
  | FourSingle | FourPair | Bomb | Rocket | Invalid
  deriving DecidableEq, Repr

/-- A classified combination: kind, comparison power, the submitted cards,
the straight or straight-pair length hint, and the consecutive-triple
count for the plane family. -/
structure Combination where
  type : CombinationType
  power : Nat
  cards : List Nat
  lengthHint : Option Nat := none
  planeTriples : Option Nat := none
  deriving DecidableEq, Repr

/-- The sorted value list the analyzer computes from the submitted cards. -/
def cardValues (cards : List Nat) : List Nat :=
  sortAsc (cards.map entityToValue)

theorem length_cardValues (cards : List Nat) :
    (cardValues cards).length = cards.length := by
  simp [cardValues, length_sortAsc]

/-- Maximum of a value list, the embedding of Math.max over the spread
list; value lists are nonempty wherever this is used. -/
def listMax (l : List Nat) : Nat := l.foldr max 0

/-- Each element is the successor of the one before it, the embedding of
the index loop that detects a break in consecutive values. -/
def consecutive : List Nat → Bool
  | [] => true
  | [_] => true
  | a :: b :: l => b == a + 1 && consecutive (b :: l)

/-- Straight test of the source: at least five cards, pairwise distinct
values, no value 15 or above, strictly consecutive. -/
def isStraight (values : List Nat) : Bool :=
  decide (5 ≤ values.length) && decide (values.dedup.length = values.length) &&
    values.dedup.all (fun v => decide (v < 15)) && consecutive values.dedup

/-- Straight-pair test of the source: even count of at least six, every
distinct value exactly twice, no value 15 or above, strictly consecutive. -/
def isPairStraight (values : List Nat) : Bool :=
  decide (6 ≤ values.length) && decide (values.length % 2 = 0) &&
    values.dedup.all (fun v => decide (v < 15)) &&
    values.dedup.all (fun v => decide (values.count v = 2)) &&
    consecutive values.dedup

/-- The ascending list of distinct values that occur at least three times
and are below 15, the candidate triple values of the plane search. -/
def tripleValues (values : List Nat) : List Nat :=
  values.dedup.filter (fun v => decide (3 ≤ values.count v ∧ v < 15))

/-- Partition an ascending list into its maximal runs of consecutive
values, the embedding of the break-detecting index loop of the plane
search: a new element either extends the run it precedes or opens a run
of its own. -/
def runsSplit : List Nat → List (List Nat)
  | [] => []
  | v :: vs =>
      match runsSplit vs with
      | [] => [[v]]
      | [] :: rs => [v] :: [] :: rs
      | (w :: ws) :: rs =>
          if w = v + 1 then (v :: w :: ws) :: rs else [v] :: (w :: ws) :: rs

theorem runsSplit_flatten (l : List Nat) : (runsSplit l).flatten = l := by
  induction l with
  | nil => rfl
  | cons v vs ih =>
      simp only [runsSplit]
      split
      · rename_i heq
        rw [heq] at ih
        simp at ih
        simp [← ih]
      · rename_i rs heq
        rw [heq] at ih
        simp at ih ⊢
        exact ih
      · rename_i w ws rs heq
        rw [heq] at ih
        simp only [List.flatten_cons] at ih
        split <;> simp only [List.flatten_cons] <;> rw [← ih] <;> simp

/-- The all-pairs check on the remainder after removing three copies of
each run value, used by the plane-with-pairs branch of the source. -/
def planePairRest (values run : List Nat) : Bool :=
  values.dedup.all (fun v =>
    let c := if run.contains v then values.count v - 3 else values.count v
    c == 0 || c == 2)

/-- Iterate over the consecutive-triple runs in ascending order and return
the first plane-family classification whose card count fits, exactly as
the run loop of the source analyzer does. -/
def planeScan (cards values : List Nat) : List (List Nat) → Option Combination
  | [] => none
  | run :: rs =>
      if 2 ≤ run.length then
        if cards.length = run.length * 3 then
          some ⟨.Plane, run.getLastD 0, cards, none, some run.length⟩
        else if cards.length = run.length * 4 then
          some ⟨.PlaneSingle, run.getLastD 0, cards, none, some run.length⟩
        else if cards.length = run.length * 5 ∧ planePairRest values run then
          some ⟨.PlanePair, run.getLastD 0, cards, none, some run.length⟩
        else planeScan cards values rs
      else planeScan cards values rs

/-- First distinct value with exactly four copies, the four-of-a-kind
lookup of the four-with-attachments branches. -/
def find4 (values : List Nat) : Option Nat :=
  values.dedup.find? (fun v => values.count v = 4)

/-- Rocket branch of the analyzer: exactly the two jokers. -/
def tryRocket (cards : List Nat) : Option Combination :=
  if cards.length = 2 ∧ (cardValues cards).contains 16 ∧
      (cardValues cards).contains 17 then
    some ⟨.Rocket, 1000, cards, none, none⟩
  else none

/-- Bomb branch: four cards of one value. -/
def tryBomb (cards : List Nat) : Option Combination :=
  if cards.length = 4 ∧ (cardValues cards).dedup.length = 1 then
    some ⟨.Bomb, 100 + (cardValues cards).headD 0, cards, none, none⟩
  else none

/-- Single branch: one card. -/
def trySingle (cards : List Nat) : Option Combination :=
  if cards.length = 1 then
    some ⟨.Single, (cardValues cards).headD 0, cards, none, none⟩
  else none

/-- Pair branch: two cards of one value. -/
def tryPair (cards : List Nat) : Option Combination :=
  if cards.length = 2 ∧ (cardValues cards).dedup.length = 1 then
    some ⟨.Pair, (cardValues cards).headD 0, cards, none, none⟩
  else none

/-- Triple branch: three cards of one value. -/
def tryTriple (cards : List Nat) : Option Combination :=
  if cards.length = 3 ∧ (cardValues cards).dedup.length = 1 then
    some ⟨.Triple, (cardValues cards).headD 0, cards, none, none⟩
  else none

/-- Triple-with-single branch: four cards in counts three plus one. -/
def tryTripleSingle (cards : List Nat) : Option Combination :=
  if cards.length = 4 ∧ (cardValues cards).dedup.length = 2 ∧
      ((cardValues cards).dedup.map ((cardValues cards).count ·)).contains 3 ∧
      ((cardValues cards).dedup.map ((cardValues cards).count ·)).contains 1 then
    some ⟨.TripleSingle,
      ((cardValues cards).dedup.find?
        (fun v => (cardValues cards).count v = 3)).getD 0, cards, none, none⟩
  else none

/-- Five-card straight branch, length hint five. -/
def tryStraight5 (cards : List Nat) : Option Combination :=
  if cards.length = 5 ∧ isStraight (cardValues cards) then
    some ⟨.Straight, listMax (cardValues cards), cards, some 5, none⟩
  else none

/-- Triple-with-pair branch: five cards in counts three plus two. -/
def tryTriplePair (cards : List Nat) : Option Combination :=
  if cards.length = 5 ∧ (cardValues cards).dedup.length = 2 ∧
      ((cardValues cards).dedup.map ((cardValues cards).count ·)).contains 3 ∧
      ((cardValues cards).dedup.map ((cardValues cards).count ·)).contains 2 then
    some ⟨.TriplePair,
      ((cardValues cards).dedup.find?
        (fun v => (cardValues cards).count v = 3)).getD 0, cards, none, none⟩
  else none

/-- General straight branch, length hint the card count. -/
def tryStraightLong (cards : List Nat) : Option Combination :=
  if 5 ≤ cards.length ∧ isStraight (cardValues cards) then
    some ⟨.Straight, listMax (cardValues cards), cards, some cards.length, none⟩
  else none

/-- Straight-pair branch, length hint half the card count. -/
def tryStraightPair (cards : List Nat) : Option Combination :=
  if 6 ≤ cards.length ∧ isPairStraight (cardValues cards) then
    some ⟨.StraightPair, listMax (cardValues cards), cards,
      some (cards.length / 2), none⟩
  else none

/-- Four-with-two-singles branch: six cards with a count of four. -/
def tryFourSingle (cards : List Nat) : Option Combination :=
  if cards.length = 6 ∧ (find4 (cardValues cards)).isSome then
    some ⟨.FourSingle, (find4 (cardValues cards)).getD 0, cards, none, none⟩
  else none

/-- Four-with-two-pairs branch: eight cards with a count of four and two
other pairs. -/
def tryFourPair (cards : List Nat) : Option Combination :=
  if cards.length = 8 ∧ (find4 (cardValues cards)).isSome ∧
      ((cardValues cards).dedup.filter
        (fun v => decide (v ≠ (find4 (cardValues cards)).getD 0 ∧
          (cardValues cards).count v = 2))).length = 2 then
    some ⟨.FourPair, (find4 (cardValues cards)).getD 0, cards, none, none⟩
  else none

/-- The early-return chain of the analyzer before the plane search: the
first branch that returns wins, none means fall through to the plane
block; the order is the priority order of the source. -/
def basicClassify (cards : List Nat) : Option Combination :=
  tryRocket cards <|> tryBomb cards <|> trySingle cards <|> tryPair cards <|>
  tryTriple cards <|> tryTripleSingle cards <|> tryStraight5 cards <|>
  tryTriplePair cards <|> tryStraightLong cards <|> tryStraightPair cards <|>
  tryFourSingle cards <|> tryFourPair cards

/-- The combination analyzer: classification attempted in the priority
order of the source; inputs missed by every branch including the trailing
plane search are Invalid. -/
def analyzeCombination (cards : List Nat) : Combination :=
  if cards.length = 0 then ⟨.Invalid, 0, [], none, none⟩
  else
    match basicClassify cards with
    | some c => c
    | none =>
        (planeScan cards (cardValues cards)
          (runsSplit (tripleValues (cardValues cards)))).getD
          ⟨.Invalid, 0, cards, none, none⟩

/-- The combination comparator: can the candidate a beat the reference b,
with null reference meaning an open round. -/
def canBeat (a : Combination) (b : Option Combination) : Bool :=
  match b with
  | none => decide (a.type ≠ .Invalid)
  | some b =>
      if a.type = .Rocket then true
      else if b.type = .Rocket then false
      else if a.type = .Bomb ∧ b.type ≠ .Bomb then true
      else if a.type ≠ .Bomb ∧ b.type = .Bomb then false
      else if a.type ≠ b.type then false
      else if (a.type = .Straight ∨ a.type = .StraightPair) ∧
          a.lengthHint.getD 0 ≠ b.lengthHint.getD 0 then false
      else if (a.type = .Plane ∨ a.type = .PlaneSingle ∨ a.type = .PlanePair) ∧
          a.planeTriples.getD 0 ≠ b.planeTriples.getD 0 then false
      else decide (b.power < a.power)

/-!
Match state machine.  One room is modelled; the handlers below embed the
socket command handlers of the server entry point in their exact
validation and mutation order.  Wall-clock deadlines and the outbound
snapshot broadcasts are not part of the modelled state; the only modelled
event is the game-ended emission.  The field playedGhost is an auxiliary
history variable, not present in the source state, appended exactly by
the card lists of accepted plays so that card conservation is statable.
-/

/-- A seated player: seat index, hand, and the opaque connection id. -/
structure PlayerState where
  seat : Nat
  hand : List Nat
  socketId : Nat
  deriving DecidableEq, Repr

/-- The canonical room state of the server. -/
structure RoomState where
  players : List PlayerState
  landlordSeat : Option Nat
  bottomCards : List Nat
  currentSeat : Nat
  lastPlay : List Nat
  lastPlayOwnerSeat : Option Nat
  started : Bool
  passCount : Nat
  bidding : Bool
  currentBid : Nat
  biddingSeat : Nat
  provisionalLandlordSeat : Option Nat
  playedGhost : List Nat
  deriving DecidableEq, Repr

/-- The room registry restricted to a single room id: none means the room
does not exist (never created, or destroyed). -/
def World : Type := Option RoomState

/-- Rejection reasons of the acknowledgment callbacks. -/
inductive Reject where
  | noRoom | roomFull | biddingNotFinished | noPlayer | notYourTurn
  | cardsNotInHand | invalidPlay | cannotPass | notInBidding | notYourBidTurn
  deriving DecidableEq, Repr

/-- Acknowledgment returned to the submitting client. -/
inductive Ack where
  | ok
  | err (e : Reject)
  deriving DecidableEq, Repr

/-- Modelled server-to-room events: only the game-ended emission. -/
inductive Event where
  | gameEnded (winnerSeat : Nat)
  deriving DecidableEq, Repr

/-- The fresh room created by ensureRoom. -/
def freshRoom : RoomState :=
  { players := [], landlordSeat := none, bottomCards := [], currentSeat := 0,
    lastPlay := [], lastPlayOwnerSeat := none, started := false, passCount := 0,
    bidding := false, currentBid := 0, biddingSeat := 0,
    provisionalLandlordSeat := none, playedGhost := [] }

/-- Look the room up, creating it when absent. -/
def ensureRoom (w : World) : RoomState :=
  match w with
  | some r => r
  | none => freshRoom

/-- First player whose connection matches, as the find of the source. -/
def findPlayer (r : RoomState) (sock : Nat) : Option PlayerState :=
  r.players.find? (fun p => p.socketId == sock)

/-- Update the first player whose connection matches, embedding the
in-place mutation of the object returned by find. -/
def updatePlayer : List PlayerState → Nat → (PlayerState → PlayerState) → List PlayerState
  | [], _, _ => []
  | q :: qs, sock, f =>
      if q.socketId = sock then f q :: qs else q :: updatePlayer qs sock f

/-- Remove the first player whose connection matches, the splice of the
disconnect handler. -/
def removePlayer : List PlayerState → Nat → List PlayerState
  | [], _ => []
  | q :: qs, sock => if q.socketId = sock then qs else q :: removePlayer qs sock

/-- Deal a shuffled deck: 17 cards to each seat round-robin from the first
51 positions, the remaining 3 to the bottom. -/
def deal (deck : List Nat) : List (List Nat) × List Nat :=
  let first51 := deck.take 51
  (([0, 1, 2].map fun j => (first51.enum.filter (fun p => p.1 % 3 == j)).map (·.2)),
    deck.drop 51)

/-- Give each of the three seats its dealt hand, by position. -/
def assignHands (players : List PlayerState) (hands : List (List Nat)) : List PlayerState :=
  players.enum.map fun p => { p.2 with hand := (hands.get? p.1).getD [] }

/-- The join handler.  The shuffled deck and the randomly drawn first
bidding seat are parameters standing for the randomness of the source. -/
def roomJoin (w : World) (sock : Nat) (deck : List Nat) (bseat : Nat) :
    World × Ack × List Event :=
  let room := ensureRoom w
  if 3 ≤ room.players.length then (w, .err .roomFull, [])
  else
    let seat := room.players.length
    let room1 := { room with players := room.players ++ [⟨seat, [], sock⟩] }
    if room1.players.length = 3 then
      let dealt := deal deck
      let room2 := { room1 with
        bidding := true, currentBid := 0, biddingSeat := bseat % 3,
        provisionalLandlordSeat := none, bottomCards := dealt.2,
        players := assignHands room1.players dealt.1 }
      (some room2, .ok, [])
    else (some room1, .ok, [])

/-- Transition from bidding into playing: the provisional landlord (seat 0
when nobody bid) receives the bottom cards and leads an open round. -/
def startPlaying (r : RoomState) : RoomState :=
  let ls := r.provisionalLandlordSeat.getD 0
  let players1 :=
    match r.players.get? ls with
    | some p => r.players.set ls { p with hand := p.hand ++ r.bottomCards }
    | none => r.players
  { r with
      bidding := false
      started := true
      landlordSeat := some ls
      players := players1
      currentSeat := ls
      lastPlay := []
      lastPlayOwnerSeat := none
      passCount := 0 }

/-- The bid resolution of the source: a bid above the current one is
registered clamped to 3; reaching 3 starts play at once; otherwise the
bidding turn advances and bidding ends when the rotation returns to the
provisional landlord. -/
def handleBid (r : RoomState) (seat amount : Nat) : RoomState :=
  let r1 :=
    if r.currentBid < amount then
      { r with currentBid := min amount 3, provisionalLandlordSeat := some seat }
    else r
  if r1.currentBid = 3 then startPlaying r1
  else
    let r2 := { r1 with biddingSeat := (r1.biddingSeat + 1) % 3 }
    match r2.provisionalLandlordSeat with
    | some s => if r2.biddingSeat = s then startPlaying r2 else r2
    | none => r2

/-- The bid handler: validation prefix, then the always-accepting bid
resolution. -/
def biddingBid (w : World) (sock amount : Nat) : World × Ack × List Event :=
  match w with
  | none => (w, .err .noRoom, [])
  | some r =>
      if r.bidding = false then (w, .err .notInBidding, [])
      else
        match findPlayer r sock with
        | none => (w, .err .noPlayer, [])
        | some p =>
            if r.biddingSeat ≠ p.seat then (w, .err .notYourBidTurn, [])
            else (some (handleBid r p.seat amount), .ok, [])

/-- The play handler: the full validation prefix, then hand removal, trick
bookkeeping, turn advance, bottom-card clearing after a landlord play, and
room destruction on a winning play. -/
def playCards (w : World) (sock : Nat) (cards : List Nat) :
    World × Ack × List Event :=
  match w with
  | none => (w, .err .noRoom, [])
  | some r =>
      if r.bidding then (w, .err .biddingNotFinished, [])
      else
        match findPlayer r sock with
        | none => (w, .err .noPlayer, [])
        | some p =>
            if r.currentSeat ≠ p.seat then (w, .err .notYourTurn, [])
            else if ¬ (cards.all (fun c => p.hand.contains c)) then
              (w, .err .cardsNotInHand, [])
            else
              let curr := analyzeCombination cards
              let last :=
                if 0 < r.lastPlay.length then some (analyzeCombination r.lastPlay)
                else none
              if canBeat curr last = false then (w, .err .invalidPlay, [])
              else
                let newHand := p.hand.filter (fun c => !(cards.contains c))
                let players1 := updatePlayer r.players sock
                  (fun q => { q with hand := newHand })
                let r1 := { r with
                  players := players1
                  lastPlay := cards
                  lastPlayOwnerSeat := some p.seat
                  currentSeat := (r.currentSeat + 1) % 3
                  passCount := 0
                  playedGhost := r.playedGhost ++ cards }
                let r2 :=
                  if r.landlordSeat = some p.seat ∧ 0 < r1.bottomCards.length then
                    { r1 with bottomCards := [] }
                  else r1
                if newHand.length = 0 then (none, .ok, [.gameEnded p.seat])
                else (some r2, .ok, [])

/-- The pass handler: validation prefix, the cannot-pass guard, then pass
count increment, turn advance, and trick closure. -/
def playPass (w : World) (sock : Nat) : World × Ack × List Event :=
  match w with
  | none => (w, .err .noRoom, [])
  | some r =>
      if r.bidding then (w, .err .biddingNotFinished, [])
      else
        match findPlayer r sock with
        | none => (w, .err .noPlayer, [])
        | some p =>
            if r.currentSeat ≠ p.seat then (w, .err .notYourTurn, [])
            else if r.lastPlay.length = 0 ∨ r.lastPlayOwnerSeat = some p.seat then
              (w, .err .cannotPass, [])
            else
              let r1 := { r with
                passCount := r.passCount + 1
                currentSeat := (r.currentSeat + 1) % 3 }
              let r2 :=
                if 2 ≤ r1.passCount ∧ some r1.currentSeat = r1.lastPlayOwnerSeat then
                  { r1 with lastPlay := [], lastPlayOwnerSeat := none, passCount := 0 }
                else r1
              (some r2, .ok, [])

/-- The disconnect handler: splice the seat record out, destroy the room
when no seat remains. -/
def disconnectStep (w : World) (sock : Nat) : World :=
  match w with
  | none => none
  | some r =>
      if r.players.any (fun p => p.socketId == sock) then
        let players1 := removePlayer r.players sock
        if players1.length = 0 then none else some { r with players := players1 }
      else some r

/-- The play-turn timeout callback: a stale or unstarted room is a no-op;
a seat that may not pass only has its deadline rearmed; otherwise the
callback performs the pass mutation for the seat on the clock. -/
def playTimeoutFire (w : World) : World :=
  match w with
  | none => none
  | some r =>
      if r.started = false then some r
      else if r.lastPlay.length = 0 ∨ r.lastPlayOwnerSeat = some r.currentSeat then
        some r
      else
        let r1 := { r with
          passCount := r.passCount + 1
          currentSeat := (r.currentSeat + 1) % 3 }
        let r2 :=
          if 2 ≤ r1.passCount ∧ some r1.currentSeat = r1.lastPlayOwnerSeat then
            { r1 with lastPlay := [], lastPlayOwnerSeat := none, passCount := 0 }
          else r1
        some r2

/-!
Claim theorems.
-/

/-- C2: entityToValue maps ids 3..13 to themselves, id 1 to 14, id 2 to
15, id 53 to 16 and id 54 to 17; the rank pattern repeats across the four
suits (ids thirteen apart below the jokers agree), and the rank order
3 < 4 < ... < K < A < 2 < small joker < big joker holds. -/
theorem entityToValue_spec :
    (∀ id, 3 ≤ id → id ≤ 13 → entityToValue id = id) ∧
    entityToValue 1 = 14 ∧ entityToValue 2 = 15 ∧
    entityToValue 53 = 16 ∧ entityToValue 54 = 17 ∧
    (∀ id, 1 ≤ id → id ≤ 39 → entityToValue (id + 13) = entityToValue id) ∧
    List.Chain' (· < ·)
      (([3, 4, 5, 6, 7, 8, 9, 10, 11, 12, 13, 1, 2, 53, 54] : List Nat).map
        entityToValue) := by
  have h1 : ∀ id, id < 14 → (3 ≤ id → entityToValue id = id) := by decide
  have h2 : ∀ id, id < 40 → (1 ≤ id → entityToValue (id + 13) = entityToValue id) := by
    decide
  have h3 : (([3, 4, 5, 6, 7, 8, 9, 10, 11, 12, 13, 1, 2, 53, 54] : List Nat).map
      entityToValue) = [3, 4, 5, 6, 7, 8, 9, 10, 11, 12, 13, 14, 15, 16, 17] := by
    decide
  refine ⟨fun id ha hb => h1 id (by omega) ha, by decide, by decide, by decide,
    by decide, fun id ha hb => h2 id (by omega) ha, ?_⟩
  rw [h3]
  norm_num [List.chain'_cons]

/-- C2 witness. -/
theorem entityToValue_spec_witness : entityToValue 7 = 7 :=
  entityToValue_spec.1 7 (by decide) (by decide)

/-- C3 counterexample: the claim asserts that no combination beats a
Rocket reference, but the candidate Rocket short-circuit precedes the
reference Rocket check, so a Rocket candidate beats a Rocket reference. -/
theorem rocket_beats_rocket :
    (analyzeCombination [53, 54]).type = CombinationType.Rocket ∧
    canBeat (analyzeCombination [53, 54]) (some (analyzeCombination [53, 54])) = true := by
  decide

/-- C3 amended: a Rocket candidate beats every reference (and opens any
round); a reference Rocket is beaten by no non-Rocket candidate. -/
theorem rocket_override (a b : Combination) :
    (a.type = CombinationType.Rocket →
      canBeat a (some b) = true ∧ canBeat a none = true) ∧
    (a.type ≠ CombinationType.Rocket → b.type = CombinationType.Rocket →
      canBeat a (some b) = false) := by
  constructor
  · intro ha
    simp [canBeat, ha]
  · intro ha hb
    simp [canBeat, ha, hb]

/-- C3 amended witness. -/
theorem rocket_override_witness :
    canBeat (analyzeCombination [3]) (some (analyzeCombination [53, 54])) = false :=
  (rocket_override (analyzeCombination [3]) (analyzeCombination [53, 54])).2
    (by decide) (by decide)

/-- The recorded structural length of a combination: the length hint for
straights and straight pairs, the consecutive-triple run count for the
plane family, nothing otherwise. -/
def structLen (c : Combination) : Option Nat :=
  if c.type = .Straight ∨ c.type = .StraightPair then c.lengthHint
  else if c.type = .Plane ∨ c.type = .PlaneSingle ∨ c.type = .PlanePair then
    c.planeTriples
  else none

/-- C4: two combinations of the same straight, straight-pair, or
plane-family kind whose recorded structural lengths differ never beat one
another in either direction, regardless of power. -/
theorem length_gating (a b : Combination) (la lb : Nat)
    (htype : a.type = b.type) (ha : structLen a = some la)
    (hb : structLen b = some lb) (hne : la ≠ lb) :
    canBeat a (some b) = false ∧ canBeat b (some a) = false := by
  unfold structLen at ha hb
  by_cases hs : a.type = .Straight ∨ a.type = .StraightPair
  · have hsb : b.type = .Straight ∨ b.type = .StraightPair := by rwa [htype] at hs
    rw [if_pos hs] at ha
    rw [if_pos hsb] at hb
    have hgd : a.lengthHint.getD 0 ≠ b.lengthHint.getD 0 := by
      rw [ha, hb]; simpa using hne
    constructor
    · rcases hs with h | h <;> simp [canBeat, h, ← htype, hgd]
    · rcases hsb with h | h <;> simp [canBeat, h, htype, Ne.symm hgd]
  · by_cases hp : a.type = .Plane ∨ a.type = .PlaneSingle ∨ a.type = .PlanePair
    · have hpb : b.type = .Plane ∨ b.type = .PlaneSingle ∨ b.type = .PlanePair := by
        rwa [htype] at hp
      have hsb : ¬ (b.type = .Straight ∨ b.type = .StraightPair) := by
        rw [← htype]; exact hs
      rw [if_neg hs, if_pos hp] at ha
      rw [if_neg hsb, if_pos hpb] at hb
      have hgd : a.planeTriples.getD 0 ≠ b.planeTriples.getD 0 := by
        rw [ha, hb]; simpa using hne
      constructor
      · rcases hp with h | h | h <;> simp [canBeat, h, ← htype, hgd]
      · rcases hpb with h | h | h <;> simp [canBeat, h, htype, Ne.symm hgd]
    · rw [if_neg hs, if_neg hp] at ha
      exact absurd ha (by simp)

/-- C6: every join, bid, play, or pass command that is answered with a
rejected acknowledgment leaves the room state exactly as it was: all
validation completes before any mutation. -/
theorem rejection_atomicity (w : World) (e : Reject) :
    (∀ sock deck bseat, (roomJoin w sock deck bseat).2.1 = .err e →
      (roomJoin w sock deck bseat).1 = w) ∧
    (∀ sock amount, (biddingBid w sock amount).2.1 = .err e →
      (biddingBid w sock amount).1 = w) ∧
    (∀ sock cards, (playCards w sock cards).2.1 = .err e →
      (playCards w sock cards).1 = w) ∧
    (∀ sock, (playPass w sock).2.1 = .err e → (playPass w sock).1 = w) := by
  refine ⟨fun sock deck bseat h => ?_, fun sock amount h => ?_,
    fun sock cards h => ?_, fun sock h => ?_⟩
  · simp only [roomJoin] at h ⊢
    repeat' split at h
    all_goals simp_all
  · simp only [biddingBid] at h ⊢
    repeat' split at h
    all_goals simp_all
  · simp only [playCards] at h ⊢
    repeat' split at h
    all_goals simp_all
  · simp only [playPass] at h ⊢
    repeat' split at h
    all_goals simp_all

/-- C6 witness: a pass on a nonexistent room is rejected and the world is
unchanged. -/
theorem rejection_atomicity_witness : (playPass none 0).1 = none :=
  (rejection_atomicity none .noRoom).2.2.2 0 (by decide)

/-- C8: an accepted play that empties the acting hand produces exactly one
game-ended event naming that seat and destroys the room; with the room
gone, every subsequent bid, play, or pass command is rejected with no
state to mutate. -/
theorem win_is_terminal (r : RoomState) (sock : Nat) (cards : List Nat)
    (p : PlayerState)
    (hbid : r.bidding = false)
    (hfind : findPlayer r sock = some p)
    (hturn : r.currentSeat = p.seat)
    (hown : cards.all (fun c => p.hand.contains c) = true)
    (hbeat : canBeat (analyzeCombination cards)
      (if 0 < r.lastPlay.length then some (analyzeCombination r.lastPlay)
       else none) = true)
    (hempty : p.hand.filter (fun c => !(cards.contains c)) = []) :
    playCards (some r) sock cards = (none, .ok, [.gameEnded p.seat]) ∧
    (∀ sock2 amount, biddingBid none sock2 amount = (none, .err .noRoom, [])) ∧
    (∀ sock2 cards2, playCards none sock2 cards2 = (none, .err .noRoom, [])) ∧
    (∀ sock2, playPass none sock2 = (none, .err .noRoom, [])) := by
  refine ⟨?_, fun sock2 amount => rfl, fun sock2 cards2 => rfl, fun sock2 => rfl⟩
  unfold playCards
  simp only [hbid, hfind, hturn, hown, hbeat, hempty]
  simp [hempty]

/-- C8 witness. -/
theorem win_is_terminal_witness :
    playCards
      (some { players := [⟨0, [3], 10⟩, ⟨1, [4], 11⟩, ⟨2, [5], 12⟩],
              landlordSeat := some 0, bottomCards := [], currentSeat := 0,
              lastPlay := [], lastPlayOwnerSeat := none, started := true,
              passCount := 0, bidding := false, currentBid := 3,
              biddingSeat := 0, provisionalLandlordSeat := some 0,
              playedGhost := [] }) 10 [3] = (none, .ok, [.gameEnded 0]) :=
  (win_is_terminal _ 10 [3] ⟨0, [3], 10⟩ rfl (by decide) rfl (by decide)
    (by decide) (by decide)).1

/-- C9: firing the play-turn timeout in a playing room whose seat on the
clock may not pass (open round or trick owner) leaves the modelled room
state unchanged, only rearming the deadline; otherwise it produces exactly
the state of an accepted pass by the seat on the clock. -/
theorem playTimeout_refines_pass (r : RoomState) (sock : Nat) (p : PlayerState)
    (hst : r.started = true) (hbid : r.bidding = false)
    (hfind : findPlayer r sock = some p) (hseat : p.seat = r.currentSeat) :
    ((r.lastPlay.length = 0 ∨ r.lastPlayOwnerSeat = some r.currentSeat) →
      playTimeoutFire (some r) = some r) ∧
    (¬ (r.lastPlay.length = 0 ∨ r.lastPlayOwnerSeat = some r.currentSeat) →
      playPass (some r) sock = (playTimeoutFire (some r), .ok, [])) := by
  constructor
  · intro h
    simp only [playTimeoutFire]
    have hns : ¬ (r.started = false) := by rw [hst]; simp
    rw [if_neg hns, if_pos h]
  · intro h
    simp only [playPass, playTimeoutFire, hfind, hbid, hst]
    rw [hseat]
    have hG : ¬ (r.lastPlay = [] ∨ r.lastPlayOwnerSeat = some r.currentSeat) := by
      simpa using h
    simp [hG]

/-- C9 witness. -/
theorem playTimeout_refines_pass_witness :
    playPass
      (some { players := [⟨0, [3], 10⟩, ⟨1, [4], 11⟩, ⟨2, [5], 12⟩],
              landlordSeat := some 1, bottomCards := [], currentSeat := 0,
              lastPlay := [9], lastPlayOwnerSeat := some 1, started := true,
              passCount := 0, bidding := false, currentBid := 3,
              biddingSeat := 0, provisionalLandlordSeat := some 1,
              playedGhost := [9] }) 10 =
      (playTimeoutFire
        (some { players := [⟨0, [3], 10⟩, ⟨1, [4], 11⟩, ⟨2, [5], 12⟩],
                landlordSeat := some 1, bottomCards := [], currentSeat := 0,
                lastPlay := [9], lastPlayOwnerSeat := some 1, started := true,
                passCount := 0, bidding := false, currentBid := 3,
                biddingSeat := 0, provisionalLandlordSeat := some 1,
                playedGhost := [9] }), .ok, []) :=
  (playTimeout_refines_pass _ 10 ⟨0, [3], 10⟩ rfl rfl (by decide) rfl).2
    (by decide)

theorem handleBid_bid_fields (r : RoomState) (seat amount : Nat)
    (hgt : r.currentBid < amount) :
    (handleBid r seat amount).currentBid = min amount 3 ∧
    (3 < amount → (handleBid r seat amount).bidding = false ∧
      (handleBid r seat amount).started = true ∧
      (handleBid r seat amount).landlordSeat = some seat) := by
  unfold handleBid
  rw [if_pos hgt]
  by_cases h3 : min amount 3 = 3
  · try dsimp only
    rw [if_pos h3]
    exact ⟨by simp [startPlaying], fun hlt => by simp [startPlaying]⟩
  · try dsimp only
    rw [if_neg h3]
    try dsimp only
    constructor
    · split <;> simp [startPlaying]
    · intro hlt
      exact absurd (by omega) h3

/-- C10: during bidding, a bid by the seat on the bidding turn with any
amount strictly above the current bid is accepted; the registered bid is
the amount clamped to 3, and an amount above 3 makes the current bid
exactly 3, immediately ending bidding and starting play with that seat as
landlord. -/
theorem bid_clamped_accepted (r : RoomState) (sock amount : Nat) (p : PlayerState)
    (hbid : r.bidding = true) (hfind : findPlayer r sock = some p)
    (hturn : r.biddingSeat = p.seat) (hgt : r.currentBid < amount) :
    (biddingBid (some r) sock amount).2.1 = .ok ∧
    ∃ r2, (biddingBid (some r) sock amount).1 = some r2 ∧
      r2.currentBid = min amount 3 ∧
      (3 < amount → r2.currentBid = 3 ∧ r2.bidding = false ∧ r2.started = true ∧
        r2.landlordSeat = some p.seat) := by
  have hf := handleBid_bid_fields r p.seat amount hgt
  simp only [biddingBid, hbid, hfind]
  rw [hturn]
  simp only [ne_eq, not_true_eq_false, if_false]
  refine ⟨rfl, handleBid r p.seat amount, rfl, hf.1, fun h3 => ?_⟩
  exact ⟨by rw [hf.1]; omega, (hf.2 h3).1, (hf.2 h3).2.1, (hf.2 h3).2.2⟩

/-- C10 witness: an out-of-range bid of 5 is accepted, clamps to 3, and
starts play with the bidder as landlord. -/
theorem bid_clamped_accepted_witness :
    (biddingBid
      (some { players := [⟨0, [3], 10⟩, ⟨1, [4], 11⟩, ⟨2, [5], 12⟩],
              landlordSeat := none, bottomCards := [6, 7, 8], currentSeat := 0,
              lastPlay := [], lastPlayOwnerSeat := none, started := false,
              passCount := 0, bidding := true, currentBid := 0,
              biddingSeat := 0, provisionalLandlordSeat := none,
              playedGhost := [] }) 10 5).2.1 = Ack.ok :=
  (bid_clamped_accepted _ 10 5 ⟨0, [3], 10⟩ rfl (by decide) rfl (by decide)).1

/-- C4 witness: a five-card straight and a six-card straight never compare. -/
theorem length_gating_witness :
    canBeat (analyzeCombination [3, 4, 5, 6, 7]) (some (analyzeCombination [3, 4, 5, 6, 7, 8])) = false ∧
    canBeat (analyzeCombination [3, 4, 5, 6, 7, 8]) (some (analyzeCombination [3, 4, 5, 6, 7])) = false :=
  length_gating (analyzeCombination [3, 4, 5, 6, 7]) (analyzeCombination [3, 4, 5, 6, 7, 8])
    5 6 (by decide) (by decide) (by decide) (by decide)

/-- The ordered deck 1..54; the identity arrangement is one possible
outcome of the shuffle. -/
def deck54 : List Nat := List.range' 1 54

/-- C1 failing trace: three joins with the ordered deck and first bidding
seat 0, a winning bid of 3 by seat 0, then seat 0 submits the duplicated
card list with id 1 twice.  The ownership check passes because both
entries are found in the hand, the list is classified as a pair, the
round is open, so the play is accepted. -/
def dupPlayWorld : World :=
  (playCards
    (biddingBid
      ((roomJoin ((roomJoin ((roomJoin none 0 deck54 0).1) 1 deck54 0).1)
        2 deck54 0).1)
      0 3).1
    0 [1, 1]).1

/-- C1: card conservation fails on a reachable Playing-phase room.  After
the accepted duplicated play, the acting hand lost a single card while the
recorded last play holds two, so the multiset of hands plus played cards
counts card id 1 twice and has 55 entries instead of 54; the accepted play
did not remove from the hand the multiset it recorded. -/
theorem card_conservation_violated :
    dupPlayWorld.map (fun r => r.started) = some true ∧
    dupPlayWorld.map (fun r => r.bidding) = some false ∧
    dupPlayWorld.map (fun r => r.lastPlay) = some [1, 1] ∧
    dupPlayWorld.map
      (fun r => ((r.players.map (fun p => p.hand)).flatten ++ r.playedGhost).count 1) =
      some 2 ∧
    dupPlayWorld.map
      (fun r => ((r.players.map (fun p => p.hand)).flatten ++ r.playedGhost).length) =
      some 55 := by
  refine ⟨by decide, by decide, by decide, by decide, by decide⟩

/-- C7 failing trace: two joins, the first seat disconnects, a third
player joins the room that now has one occupied seat. -/
def rejoinWorld : World :=
  (roomJoin (disconnectStep ((roomJoin ((roomJoin none 100 deck54 0).1)
    101 deck54 0).1) 100) 102 deck54 0).1

/-- C7: seat assignment violates distinctness.  The source assigns the
joining player the seat index equal to the number of occupied seats, not
the next free index; after the disconnect of seat 0 the remaining player
holds seat 1 and the new joiner is also given seat 1, so the occupied
seats are not pairwise distinct and the free seat 0 is never reassigned. -/
theorem seat_assignment_violated :
    rejoinWorld.map (fun r => r.players.map (fun p => (p.seat, p.socketId))) =
      some [(1, 101), (1, 102)] := by
  decide

/-- Longest length among a list of runs. -/
def maxLen (rs : List (List Nat)) : Nat := (rs.map List.length).foldr max 0

/-- The length of the longest consecutive run among the triple candidates
of the source analyzer, which are the distinct values with at least three
copies that lie below 15: the value 15 (the twos) and the jokers never
count as triple candidates in the code, so this run length can be shorter
than the longest run of triple values taken over all values. -/
def longestTripleRunLen (values : List Nat) : Nat :=
  maxLen (runsSplit (tripleValues values))

theorem le_maxLen {r : List Nat} {rs : List (List Nat)} (h : r ∈ rs) :
    r.length ≤ maxLen rs := by
  induction rs with
  | nil => cases h
  | cons x t ih =>
      rcases List.mem_cons.mp h with h | h
      · subst h; simp [maxLen]
      · simp only [maxLen, List.map_cons, List.foldr_cons]
        exact Nat.le_trans (ih h) (Nat.le_max_right _ _)

theorem maxLen_le {rs : List (List Nat)} {n : Nat}
    (h : ∀ r ∈ rs, r.length ≤ n) : maxLen rs ≤ n := by
  induction rs with
  | nil => exact Nat.zero_le n
  | cons x t ih =>
      simp only [maxLen, List.map_cons, List.foldr_cons]
      exact Nat.max_le.mpr ⟨h x (by simp), ih fun r hr => h r (by simp [hr])⟩

theorem length_le_sum_of_mem {r : List Nat} {rs : List (List Nat)} (h : r ∈ rs) :
    r.length ≤ (rs.map List.length).sum := by
  induction rs with
  | nil => cases h
  | cons x t ih =>
      rcases List.mem_cons.mp h with h | h
      · subst h; simp
      · simp only [List.map_cons, List.sum_cons]
        exact Nat.le_trans (ih h) (Nat.le_add_left _ _)

theorem two_lengths_le_sum {r r2 : List Nat} {rs : List (List Nat)}
    (h1 : r ∈ rs) (h2 : r2 ∈ rs) (hne : r ≠ r2) :
    r.length + r2.length ≤ (rs.map List.length).sum := by
  induction rs with
  | nil => cases h1
  | cons x t ih =>
      rcases List.mem_cons.mp h1 with hx | hx
      · rcases List.mem_cons.mp h2 with hy | hy
        · exact absurd (hx.trans hy.symm) hne
        · subst hx
          simp only [List.map_cons, List.sum_cons]
          exact Nat.add_le_add_left (length_le_sum_of_mem hy) _
      · rcases List.mem_cons.mp h2 with hy | hy
        · subst hy
          simp only [List.map_cons, List.sum_cons]
          rw [Nat.add_comm r.length]
          exact Nat.add_le_add_left (length_le_sum_of_mem hx) _
        · simp only [List.map_cons, List.sum_cons]
          exact Nat.le_trans (ih hx hy) (Nat.le_add_left _ _)

theorem mul_length_le_sum {l : List Nat} {f : Nat → Nat} {k : Nat}
    (h : ∀ x ∈ l, k ≤ f x) : k * l.length ≤ (l.map f).sum := by
  induction l with
  | nil => simp
  | cons x t ih =>
      have hx := h x (by simp)
      have ht := ih fun y hy => h y (by simp [hy])
      simp only [List.map_cons, List.sum_cons, List.length_cons]
      rw [Nat.mul_succ]
      omega

theorem three_mul_tripleValues_le (values : List Nat) :
    3 * (tripleValues values).length ≤ values.length := by
  have h1 : ∀ v ∈ tripleValues values, 3 ≤ values.count v := by
    intro v hv
    have := List.of_mem_filter hv
    simp at this
    exact this.1
  have h2 := mul_length_le_sum (f := fun v => values.count v) h1
  have h3 := List.sum_map_count_dedup_filter_eq_countP
    (fun v => decide (3 ≤ values.count v ∧ v < 15)) values
  have h4 := List.countP_le_length
    (p := fun v => decide (3 ≤ values.count v ∧ v < 15)) (l := values)
  unfold tripleValues at h2 ⊢
  omega

theorem sum_runsSplit_lengths (l : List Nat) :
    ((runsSplit l).map List.length).sum = l.length := by
  conv_rhs => rw [← runsSplit_flatten l]
  rw [List.length_flatten]

theorem matched_run_longest {values run : List Nat}
    (hmem : run ∈ runsSplit (tripleValues values)) (_hlen2 : 2 ≤ run.length)
    (hle : values.length ≤ 5 * run.length) :
    maxLen (runsSplit (tripleValues values)) = run.length := by
  refine Nat.le_antisymm (maxLen_le ?_) (le_maxLen hmem)
  intro r2 hr2
  by_contra hgt
  push_neg at hgt
  have hne : run ≠ r2 := by
    intro he
    rw [he] at hgt
    omega
  have hsum := two_lengths_le_sum hmem hr2 hne
  have htv := sum_runsSplit_lengths (tripleValues values)
  have h3 := three_mul_tripleValues_le values
  omega

theorem planeScan_eq_some {cards values : List Nat} {rs : List (List Nat)}
    {c : Combination} (h : planeScan cards values rs = some c) :
    ∃ run ∈ rs, 2 ≤ run.length ∧
      ((c.type = .Plane ∧ cards.length = run.length * 3) ∨
       (c.type = .PlaneSingle ∧ cards.length = run.length * 4) ∨
       (c.type = .PlanePair ∧ cards.length = run.length * 5 ∧
         planePairRest values run = true)) := by
  induction rs with
  | nil => simp [planeScan] at h
  | cons run rs ih =>
      simp only [planeScan] at h
      split_ifs at h with h1 h2 h3 h4
      · refine ⟨run, by simp, h1, Or.inl ⟨?_, h2⟩⟩
        cases h
        rfl
      · refine ⟨run, by simp, h1, Or.inr (Or.inl ⟨?_, h3⟩)⟩
        cases h
        rfl
      · refine ⟨run, by simp, h1, Or.inr (Or.inr ⟨?_, h4.1, by simp [h4.2]⟩)⟩
        cases h
        rfl
      · obtain ⟨r2, hr2, hrest⟩ := ih h
        exact ⟨r2, List.mem_cons_of_mem _ hr2, hrest⟩
      · obtain ⟨r2, hr2, hrest⟩ := ih h
        exact ⟨r2, List.mem_cons_of_mem _ hr2, hrest⟩

theorem orElse_some {a b : Option Combination} {c : Combination}
    (h : (a <|> b) = some c) : a = some c ∨ b = some c := by
  cases a with
  | none => right; simpa using h
  | some x => left; simpa using h

theorem basicClassify_type {cards : List Nat} {c : Combination}
    (h : basicClassify cards = some c) :
    c.type = .Rocket ∨ c.type = .Bomb ∨ c.type = .Single ∨ c.type = .Pair ∨
    c.type = .Triple ∨ c.type = .TripleSingle ∨ c.type = .Straight ∨
    c.type = .TriplePair ∨ c.type = .StraightPair ∨ c.type = .FourSingle ∨
    c.type = .FourPair := by
  unfold basicClassify at h
  repeat' rcases orElse_some h with h | h
  all_goals
    first
    | (unfold tryRocket at h; split at h
       · injection h with h2; subst h2; tauto
       · exact absurd h (by simp))
    | (unfold tryBomb at h; split at h
       · injection h with h2; subst h2; tauto
       · exact absurd h (by simp))
    | (unfold trySingle at h; split at h
       · injection h with h2; subst h2; tauto
       · exact absurd h (by simp))
    | (unfold tryPair at h; split at h
       · injection h with h2; subst h2; tauto
       · exact absurd h (by simp))
    | (unfold tryTriple at h; split at h
       · injection h with h2; subst h2; tauto
       · exact absurd h (by simp))
    | (unfold tryTripleSingle at h; split at h
       · injection h with h2; subst h2; tauto
       · exact absurd h (by simp))
    | (unfold tryStraight5 at h; split at h
       · injection h with h2; subst h2; tauto
       · exact absurd h (by simp))
    | (unfold tryTriplePair at h; split at h
       · injection h with h2; subst h2; tauto
       · exact absurd h (by simp))
    | (unfold tryStraightLong at h; split at h
       · injection h with h2; subst h2; tauto
       · exact absurd h (by simp))
    | (unfold tryStraightPair at h; split at h
       · injection h with h2; subst h2; tauto
       · exact absurd h (by simp))
    | (unfold tryFourSingle at h; split at h
       · injection h with h2; subst h2; tauto
       · exact absurd h (by simp))
    | (unfold tryFourPair at h; split at h
       · injection h with h2; subst h2; tauto
       · exact absurd h (by simp))

theorem basicClassify_no_plane {cards : List Nat} {c : Combination}
    (h : basicClassify cards = some c) :
    c.type ≠ .Plane ∧ c.type ≠ .PlaneSingle ∧ c.type ≠ .PlanePair := by
  rcases basicClassify_type h with h | h | h | h | h | h | h | h | h | h | h <;>
    rw [h] <;> exact ⟨by decide, by decide, by decide⟩

theorem analyze_planeFamily_scan (cards : List Nat)
    (h : (analyzeCombination cards).type = .Plane ∨
         (analyzeCombination cards).type = .PlaneSingle ∨
         (analyzeCombination cards).type = .PlanePair) :
    planeScan cards (cardValues cards)
      (runsSplit (tripleValues (cardValues cards))) =
      some (analyzeCombination cards) := by
  unfold analyzeCombination at h ⊢
  split_ifs at h ⊢ with h0
  · exact absurd h (by simp)
  · cases hb : basicClassify cards with
    | some c =>
        obtain ⟨n1, n2, n3⟩ := basicClassify_no_plane hb
        rw [hb] at h
        try dsimp only at h
        exact absurd h (by simp [n1, n2, n3])
    | none =>
        rw [hb] at h
        try dsimp only at h ⊢
        cases hs : planeScan cards (cardValues cards)
            (runsSplit (tripleValues (cardValues cards))) with
        | none =>
            rw [hs] at h
            simp at h
        | some c =>
            simp

/-- C5 amended: with run the length of the longest run of at least two
consecutive values below 15 each having at least three copies (the
analyzer never counts the twos or the jokers as triple candidates), the
analyzer returns a bare Plane only when exactly three times run cards are
present, Plane with singles only when four times run cards are present
(the source performs no validation of the attached remainder), and Plane
with pairs only when five times run cards are present and the remainder
after removing the run triples is all pairs. -/
theorem plane_shape (cards : List Nat) :
    ((analyzeCombination cards).type = .Plane →
      cards.length = 3 * longestTripleRunLen (cardValues cards)) ∧
    ((analyzeCombination cards).type = .PlaneSingle →
      cards.length = 4 * longestTripleRunLen (cardValues cards)) ∧
    ((analyzeCombination cards).type = .PlanePair →
      cards.length = 5 * longestTripleRunLen (cardValues cards) ∧
      ∃ run ∈ runsSplit (tripleValues (cardValues cards)),
        run.length = longestTripleRunLen (cardValues cards) ∧
        planePairRest (cardValues cards) run = true) := by
  by_cases hp : (analyzeCombination cards).type = .Plane ∨
      (analyzeCombination cards).type = .PlaneSingle ∨
      (analyzeCombination cards).type = .PlanePair
  · have hscan := analyze_planeFamily_scan cards hp
    obtain ⟨run, hmem, hlen2, hdisj⟩ := planeScan_eq_some hscan
    have hvl : (cardValues cards).length = cards.length := length_cardValues cards
    unfold longestTripleRunLen
    rcases hdisj with ⟨ht, hc⟩ | ⟨ht, hc⟩ | ⟨ht, hc, hrest⟩
    · have hlong := matched_run_longest hmem hlen2 (by omega)
      refine ⟨fun _ => by omega, fun h2 => absurd (ht ▸ h2) (by simp),
        fun h2 => absurd (ht ▸ h2) (by simp)⟩
    · have hlong := matched_run_longest hmem hlen2 (by omega)
      refine ⟨fun h2 => absurd (ht ▸ h2) (by simp), fun _ => by omega,
        fun h2 => absurd (ht ▸ h2) (by simp)⟩
    · have hlong := matched_run_longest hmem hlen2 (by omega)
      refine ⟨fun h2 => absurd (ht ▸ h2) (by simp),
        fun h2 => absurd (ht ▸ h2) (by simp),
        fun _ => ⟨by omega, run, hmem, by omega, hrest⟩⟩
  · push_neg at hp
    exact ⟨fun h2 => absurd h2 hp.1, fun h2 => absurd h2 hp.2.1,
      fun h2 => absurd h2 hp.2.2⟩

/-- C5 amended witness: the bare plane 333444 has six cards, three times
its run count of two. -/
theorem plane_shape_witness :
    (6 : Nat) = 3 * longestTripleRunLen (cardValues [3, 16, 29, 4, 17, 30]) :=
  (plane_shape [3, 16, 29, 4, 17, 30]).1 (by decide)

/-- Modelled from the claim wording: the runs of at least two consecutive
values each having at least three copies, with no restriction on the
values themselves; the claim states the run this way, while the analyzer
restricts its triple candidates to values below 15. -/
def specRuns (values : List Nat) : List (List Nat) :=
  (runsSplit (values.dedup.filter (fun v => decide (3 ≤ values.count v)))).filter
    (fun r => decide (2 ≤ r.length))

/-- Modelled from the claim wording: the length of the longest run of at
least two consecutive values each having at least three copies. -/
def specLongestRunLen (values : List Nat) : Nat := maxLen (specRuns values)

/-- Modelled from the claim wording: after removing three copies of each
value of the longest triple run, every remaining value occurs at most
once, so the remainder consists of distinct singles.  This is the
validation the claim asserts for the plane-with-singles shape. -/
def specPlaneSingleRemainderDistinct (values : List Nat) : Bool :=
  let rs := specRuns values
  let run := (rs.find? (fun r => r.length == maxLen rs)).getD []
  values.dedup.all (fun v =>
    decide ((if run.contains v then values.count v - 3 else values.count v) ≤ 1))

/-- C5 counterexample, two concrete inputs against the claim as stated.
First, the source classifies the cards 333444 plus the pair 55 as a plane
with singles although the remainder is a pair, not two distinct singles:
the plane-with-singles branch only compares the card count against four
times the run count and never inspects the remainder.  Second, the claim
measures run as the longest run of at least two consecutive values each
having at least three copies, with no exclusion of values 15 and above,
and that reading also fails: on three queens, three kings, three aces and
three twos the analyzer returns a plane with singles over the run Q K A
of its below-15 candidates (twelve cards, four times three), while the
longest run in the sense of the claim is Q K A 2 of length four, so four
times the claim run is sixteen, not the twelve cards present. -/
theorem planeSingle_remainder_not_validated :
    ((analyzeCombination [3, 16, 29, 4, 17, 30, 5, 18]).type =
      CombinationType.PlaneSingle ∧
     specPlaneSingleRemainderDistinct (cardValues [3, 16, 29, 4, 17, 30, 5, 18]) =
      false) ∧
    ((analyzeCombination [12, 25, 38, 13, 26, 39, 1, 14, 27, 2, 15, 28]).type =
      CombinationType.PlaneSingle ∧
     ([12, 25, 38, 13, 26, 39, 1, 14, 27, 2, 15, 28] : List Nat).length = 12 ∧
     specLongestRunLen (cardValues [12, 25, 38, 13, 26, 39, 1, 14, 27, 2, 15, 28]) = 4 ∧
     ([12, 25, 38, 13, 26, 39, 1, 14, 27, 2, 15, 28] : List Nat).length ≠
       4 * specLongestRunLen
         (cardValues [12, 25, 38, 13, 26, 39, 1, 14, 27, 2, 15, 28])) := by
  decide

end Landlord
